import Mathlib

/-
  Verification of the pystemd core (base.py and run.py) against its
  natural-language specification.  The Python code is shallowly embedded:
  Python str/bytes values that are inspected character by character are
  List Char; property-bag keys are Lean String; Python dicts are either
  association lists or functions to Option; fallible Python code returns
  Except or an explicit result inductive.
-/

/- ------------------------------------------------------------------ -/
/- Embedding of pystemd/base.py                                        -/
/- ------------------------------------------------------------------ -/

/-- Python strings and bytes, inspected character-wise. -/
abbrev PyStr := List Char

/-- A top-level child node of the introspection XML document: either an
element node with a tag and a name attribute, or some other node kind
(text, comment), mirroring the nodeType test in SDObject.load. -/
inductive XmlTopNode where
  | element (tag : PyStr) (name : PyStr)
  | nonElement
deriving DecidableEq

/-- State of an SDObject proxy: destination and path identify the remote
object; interfaces is the key set of the _interfaces dict in insertion
order; attrs records the shortcut attributes installed with setattr
(attribute name, interface name); loaded mirrors _loaded; fetchCount
counts calls to get_introspect_xml (each one is one Introspect fetch). -/
structure SDObject where
  destination : PyStr
  path : PyStr
  interfaces : List PyStr
  attrs : List (PyStr × PyStr)
  loaded : Bool
  fetchCount : Nat

/-- Python dict key insertion: a repeated key keeps its position. -/
def dictInsertKey (ks : List PyStr) (k : PyStr) : List PyStr :=
  if k ∈ ks then ks else ks ++ [k]

/-- Python setattr on the attrs record: replace an existing attribute of
the same name, otherwise append. -/
def setAttr (attrs : List (PyStr × PyStr)) (k v : PyStr) : List (PyStr × PyStr) :=
  if attrs.any (fun p => p.1 = k) then
    attrs.map (fun p => if p.1 = k then (k, v) else p)
  else attrs ++ [(k, v)]

/-- One iteration of the for-loop in SDObject.load: skip non-element
nodes and elements whose tag is not interface; otherwise store the
interface and, when the interface name starts with the decoded
destination, install a shortcut attribute keyed by the name with the
first (destination length + 1) characters removed. -/
def loadNode (s : SDObject) (node : XmlTopNode) : SDObject :=
  match node with
  | XmlTopNode.nonElement => s
  | XmlTopNode.element tag name =>
    if tag ≠ "interface".toList then s
    else
      let s2 := { s with interfaces := dictInsertKey s.interfaces name }
      if s2.destination.isPrefixOf name then
        { s2 with attrs := setAttr s2.attrs (name.drop (s2.destination.length + 1)) name }
      else s2

/-- SDObject.load: return immediately when _loaded and not force;
otherwise fetch the introspection document (fetchCount increases) and
process every top-level node.  Note: faithful to the source, the loaded
flag is never set to true. -/
def SDObject.load (self : SDObject) (force : Bool) (unit_xml : List XmlTopNode) : SDObject :=
  if self.loaded && !force then self
  else
    List.foldl loadNode { self with fetchCount := self.fetchCount + 1 } unit_xml

/-- The result of getattr(sd_object, method_name): whether the attribute
is callable, and its overwrite_interfaces list (getattr default []). -/
structure PyAttr where
  callable : Bool
  overwrite_interfaces : List PyStr
deriving DecidableEq

/-- A child node of a method element in the introspection XML: element
flag, type attribute and direction attribute. -/
structure XmlArgNode where
  isElement : Bool
  typ : PyStr
  direction : PyStr
deriving DecidableEq

/-- Outcome of a method invocation through an interface proxy.  The
transport is opaque: transportCall records that the generic path reached
bus.call_method with the given signature and arguments, overrideCall
records that the registered override was invoked with
(interface_name, args). -/
inductive CallAction where
  | overrideCall (interface_name : PyStr) (args : List Int)
  | arityError (required given : Nat)
  | notSupported
  | transportCall (interface_name method_name : PyStr) (signature : PyStr) (args : List Int)
deriving DecidableEq

/-- The blocked-character test of _auto_call_dbus_method: the regex
matches when the signature contains a variant marker v or a
dictionary-entry opening brace. -/
def containsBlockChar (sig : PyStr) : Bool :=
  sig.any (fun c => c == 'v' || c == '\x7b')

/-- Python str.join with the empty separator. -/
def concatSigs : List PyStr → PyStr
  | [] => []
  | s :: rest => s ++ concatSigs rest

/-- SDInterface._auto_call_dbus_method: arity check first, then the
blocked-character check, then the transport call with the joined
signature. -/
def auto_call_dbus_method (interface_name method_name : PyStr)
    (in_args : List PyStr) (args : List Int) : CallAction :=
  if args.length ≠ in_args.length then
    CallAction.arityError in_args.length args.length
  else if in_args.any containsBlockChar then
    CallAction.notSupported
  else
    CallAction.transportCall interface_name method_name (concatSigs in_args) args

/-- SDInterface._call_method: when the owning sd_object has a callable
attribute of the method name whose overwrite_interfaces contains this
proxy's interface, call it with (interface_name, args); otherwise gather
the declared in-direction argument types from the method XML and use the
generic path. -/
def call_method (overwrite_method : Option PyAttr) (meth_children : List XmlArgNode)
    (interface_name method_name : PyStr) (args : List Int) : CallAction :=
  let ois : List PyStr :=
    match overwrite_method with
    | some f => f.overwrite_interfaces
    | none => []
  let isCallable : Bool :=
    match overwrite_method with
    | some f => f.callable
    | none => false
  if isCallable = true ∧ interface_name ∈ ois then
    CallAction.overrideCall interface_name args
  else
    auto_call_dbus_method interface_name method_name
      ((meth_children.filter
          (fun c => c.isElement && (c.direction == "in".toList))).map
        (fun c => c.typ)) args

/-- Outcome of a property write through an interface proxy; transportSet
would be an actual remote write, which the generic path never performs. -/
inductive SetAction where
  | immutableError (property_name : PyStr)
  | notSupportedError
  | transportSet (property_name : PyStr)
deriving DecidableEq

/-- SDInterface._set_property: read-only access raises AttributeError
(the spec's ImmutablePropertyError), every other write raises
NotImplementedError (the spec's NotSupportedError). -/
def set_property (prop_access property_name : PyStr) : SetAction :=
  if prop_access = "read".toList then SetAction.immutableError property_name
  else SetAction.notSupportedError

/- ------------------------------------------------------------------ -/
/- Embedding of pystemd/run.py                                         -/
/- ------------------------------------------------------------------ -/

/-- An action registered on the CExit cleanup stack: an identifier, and
whether invoking it raises an exception. -/
structure CleanupAction where
  id : Nat
  fails : Bool
deriving DecidableEq

/-- The loop body of CExit.__exit__ applied to an already-reversed pipe:
call each action in order; an action that raises aborts the loop and the
exception escapes.  Returns the identifiers of the actions actually
invoked, in invocation order, and whether an exception escaped. -/
def runReversedPipe : List CleanupAction → List Nat × Bool
  | [] => ([], false)
  | a :: rest =>
    if a.fails then ([a.id], true)
    else
      let r := runReversedPipe rest
      (a.id :: r.1, r.2)

/-- CExit.__exit__: iterate over reversed(self.pipe).  The pipe lists
actions in registration order. -/
def cexitExit (pipe : List CleanupAction) : List Nat × Bool :=
  runReversedPipe pipe.reverse

/-- A Python value handed to get_fno: None, an int, an object with a
callable fileno method returning a descriptor, an object whose fileno
attribute is not callable, or anything else. -/
inductive PyObj where
  | pyNone
  | pyInt (n : Int)
  | fileObj (fd : Int)
  | filenoNotCallable
  | other
deriving DecidableEq

/-- get_fno from run.py: None passes through, ints pass through, objects
with a callable fileno yield fileno(); everything else raises TypeError. -/
def get_fno : PyObj → Except String PyObj
  | PyObj.pyNone => Except.ok PyObj.pyNone
  | PyObj.pyInt n => Except.ok (PyObj.pyInt n)
  | PyObj.fileObj fd => Except.ok (PyObj.pyInt fd)
  | PyObj.filenoNotCallable =>
    Except.error "Expected None, int or fileobject with fileno method"
  | PyObj.other =>
    Except.error "Expected None, int or fileobject with fileno method"

/-- The triple assignment in run: stdin, stdout, stderr are each passed
through get_fno; the first TypeError propagates. -/
def resolveStreams (stdin stdout stderr : PyObj) :
    Except String (PyObj × PyObj × PyObj) :=
  match get_fno stdin with
  | Except.error e => Except.error e
  | Except.ok i =>
    match get_fno stdout with
    | Except.error e => Except.error e
    | Except.ok o =>
      match get_fno stderr with
      | Except.error e => Except.error e
      | Except.ok er => Except.ok (i, o, er)

/-- A value stored in the unit property bag before submission. -/
inductive PropVal where
  | pyNone
  | int (n : Int)
  | bool (b : Bool)
  | bytes (s : String)
  | execStart (cmd : List String)
  | envList (entries : List String)
deriving DecidableEq

/-- The unit property bag, as the finite map a Python dict denotes. -/
abbrev Bag := String → Option PropVal

/-- Python dict item assignment. -/
def bagSet (d : Bag) (k : String) (v : PropVal) : Bag :=
  fun q => if q = k then some v else d q

/-- Python dict.update with the given key-value pairs, in order. -/
def bagUpdate (d : Bag) (kvs : List (String × PropVal)) : Bag :=
  kvs.foldl (fun acc kv => bagSet acc kv.1 kv.2) d

/-- The final comprehension of run: drop every key whose value is None. -/
def bagFilterNone (d : Bag) : Bag :=
  fun q =>
    match d q with
    | some v => if v = PropVal.pyNone then none else some v
    | none => none

/-- Python truthiness of an optional string (None and the empty string
are falsy). -/
def pyTruthyStr : Option String → Bool
  | none => false
  | some s => s != ""

/-- Python x or y restricted to optional ints (None and 0 are falsy). -/
def pyOrInt (a b : Option Int) : Option Int :=
  match a with
  | some n => if n = 0 then b else some n
  | none => b

/-- runtime_max_usec = (runtime_max_sec or 0) * 10 ** 6 or
runtime_max_sec, with Python or semantics on int-or-None. -/
def runtimeMaxUSec (sec : Option Int) : Option Int :=
  pyOrInt ((pyOrInt sec (some 0)).map (fun n => n * 1000000)) sec

/-- An optional int placed in the bag: None stays None. -/
def optIntVal : Option Int → PropVal
  | none => PropVal.pyNone
  | some n => PropVal.int n

/-- An optional byte-string placed in the bag: None stays None. -/
def optStrVal : Option String → PropVal
  | none => PropVal.pyNone
  | some s => PropVal.bytes s

/-- The Environment value: the KEY=VALUE list, or None when env is
empty (list-comprehension or None). -/
def envVal (env : List (String × String)) : PropVal :=
  if env = [] then PropVal.pyNone
  else PropVal.envList (env.map (fun kv => kv.1 ++ "=" ++ kv.2))

/-- env.setdefault style update used for TERM: assign env.get(k, v). -/
def envSetDefault (env : List (String × String)) (k v : String) :
    List (String × String) :=
  if env.any (fun kv => kv.1 == k) then env else env ++ [(k, v)]

/-- name = name or generated unique name (empty bytes count as falsy). -/
def unitName (name : Option String) (genHex : String) : String :=
  match name with
  | some s => if s = "" then "pystemd" ++ genHex ++ ".service" else s
  | none => "pystemd" ++ genHex ++ ".service"

/-- The caller-controlled inputs of run that feed the property bag.
stdin, stdout, stderr hold the already-resolved descriptors (after the
get_fno line). -/
structure RunArgs where
  cmd : List String
  name : Option String
  user : Option String
  nice : Option Int
  runtime_max_sec : Option Int
  env : List (String × String)
  extra : List (String × PropVal)
  cwd : Option String
  remain_after_exit : Bool
  pty : Bool
  pty_master : Option Int
  pty_path : Option String
  stdin : Option Int
  stdout : Option Int
  stderr : Option Int

/-- Facts the code reads from the host: the pty pair returned by
openpty or Machine.OpenPTY, the TERM environment variable, and the uuid
hex used for name generation. -/
structure HostEnv where
  acquiredPtyMaster : Int
  acquiredPtyPath : String
  osTerm : Option String
  genHex : String

/-- pty_master after the optional pty acquisition branch. -/
def effPtyMaster (a : RunArgs) (h : HostEnv) : Option Int :=
  if a.pty then some h.acquiredPtyMaster else a.pty_master

/-- pty_path after the optional pty acquisition branch (pty = True
replaces whatever pty_path was passed). -/
def effPtyPath (a : RunArgs) (h : HostEnv) : Option String :=
  if a.pty then some h.acquiredPtyPath else a.pty_path

/-- env after the TERM propagation performed in the terminal branch when
both stdout and the pty master are present and TERM is set. -/
def effEnv (a : RunArgs) (h : HostEnv) : List (String × String) :=
  if pyTruthyStr (effPtyPath a h) && a.stdout.isSome &&
      (effPtyMaster a h).isSome && pyTruthyStr h.osTerm then
    envSetDefault a.env "TERM" (h.osTerm.getD "")
  else a.env

/-- The terminal-mode properties installed when pty_path is truthy. -/
def ttyProps (path : String) : List (String × PropVal) :=
  [("StandardInput", PropVal.bytes "tty"),
   ("StandardOutput", PropVal.bytes "tty"),
   ("StandardError", PropVal.bytes "tty"),
   ("TTYPath", PropVal.bytes path)]

/-- The descriptor-mode properties installed otherwise; an absent stream
contributes None (dropped later). -/
def fdProps (a : RunArgs) : List (String × PropVal) :=
  [("StandardInputFileDescriptor", optIntVal a.stdin),
   ("StandardOutputFileDescriptor", optIntVal a.stdout),
   ("StandardErrorFileDescriptor", optIntVal a.stderr)]

/-- The empty dict unit_properties starts as. -/
def emptyBag : Bag := fun _ => none

/-- The stream-routing part of the bag: the if pty_path / else branch. -/
def streamBag (a : RunArgs) (h : HostEnv) : Bag :=
  if pyTruthyStr (effPtyPath a h) then
    bagUpdate emptyBag (ttyProps ((effPtyPath a h).getD ""))
  else
    bagUpdate emptyBag (fdProps a)

/-- The unconditional property update of run. -/
def mainProps (name : String) (a : RunArgs) (env : List (String × String)) :
    List (String × PropVal) :=
  [("Description", PropVal.bytes ("pystemd: " ++ name)),
   ("ExecStart", PropVal.execStart a.cmd),
   ("RemainAfterExit", PropVal.bool a.remain_after_exit),
   ("WorkingDirectory", optStrVal a.cwd),
   ("User", optStrVal a.user),
   ("Nice", optIntVal a.nice),
   ("RuntimeMaxUSec", optIntVal (runtimeMaxUSec a.runtime_max_sec)),
   ("Environment", envVal env)]

/-- The keys of mainProps. -/
def mainKeys : List String :=
  ["Description", "ExecStart", "RemainAfterExit", "WorkingDirectory",
   "User", "Nice", "RuntimeMaxUSec", "Environment"]

/-- The stream-routing keys of both modes. -/
def streamKeys : List String :=
  ["StandardInput", "StandardOutput", "StandardError", "TTYPath",
   "StandardInputFileDescriptor", "StandardOutputFileDescriptor",
   "StandardErrorFileDescriptor"]

/-- The bag right before the None-filter: stream routing, then the main
update, then extra (caller-supplied raw properties win). -/
def unit_properties_prefilter (a : RunArgs) (h : HostEnv) : Bag :=
  bagUpdate
    (bagUpdate (streamBag a h)
      (mainProps (unitName a.name h.genHex) a (effEnv a h)))
    a.extra

/-- The bag submitted to StartTransientUnit. -/
def unit_properties (a : RunArgs) (h : HostEnv) : Bag :=
  bagFilterNone (unit_properties_prefilter a h)

/- ------------------------------------------------------------------ -/
/- Helper lemmas                                                       -/
/- ------------------------------------------------------------------ -/

lemma isPrefixOf_append_self : ∀ (l r : List Char), l.isPrefixOf (l ++ r) = true := by
  intro l
  induction l with
  | nil => intro r; simp [List.isPrefixOf]
  | cons c cs ih => intro r; simp [List.isPrefixOf]

lemma drop_length_append : ∀ (l r : List Char), (l ++ r).drop l.length = r := by
  intro l
  induction l with
  | nil => intro r; rfl
  | cons c cs ih => intro r; simp [ih r]

lemma auto_call_ne_override (i name : PyStr) (in_args : List PyStr) (args : List Int)
    (i2 : PyStr) (args2 : List Int) :
    auto_call_dbus_method i name in_args args ≠ CallAction.overrideCall i2 args2 := by
  unfold auto_call_dbus_method
  split
  · simp
  · split <;> simp

lemma containsBlockChar_iff (sig : PyStr) :
    containsBlockChar sig = true ↔ ('v' ∈ sig ∨ '\x7b' ∈ sig) := by
  simp [containsBlockChar, List.any_eq_true]
  constructor
  · rintro ⟨c, hc, h | h⟩
    · exact Or.inl (h ▸ hc)
    · exact Or.inr (h ▸ hc)
  · rintro (h | h)
    · exact ⟨'v', h, Or.inl rfl⟩
    · exact ⟨'\x7b', h, Or.inr rfl⟩

/- ------------------------------------------------------------------ -/
/- Claims about base.py                                                -/
/- ------------------------------------------------------------------ -/

/-- Claim C1 (the code contradicts it): SDObject.load never sets the
loaded flag, so a second load() without force performs a second
introspection fetch.  Starting from a fresh proxy with fetchCount = 0,
two consecutive load() calls leave loaded still false and fetch the
document twice, where the claim requires the second call to fetch
nothing. -/
theorem load_second_call_fetches_again :
    (((⟨"svc".toList, "/obj".toList, [], [], false, 0⟩ : SDObject).load false
        [XmlTopNode.element "interface".toList "svc.Manager".toList]).loaded = false) ∧
    ((((⟨"svc".toList, "/obj".toList, [], [], false, 0⟩ : SDObject).load false
        [XmlTopNode.element "interface".toList "svc.Manager".toList]).load false
        [XmlTopNode.element "interface".toList "svc.Manager".toList]).fetchCount = 2) := by
  decide

/-- Claim C5 counterexample: destination svc and interface svcX.Manager
share a prefix but the interface is not a dotted extension, yet load
still installs a shortcut attribute (named .Manager), so the claimed
if-and-only-if fails. -/
theorem prefix_without_dot_gets_shortcut :
    ((⟨"svc".toList, "/obj".toList, [], [], false, 0⟩ : SDObject).load false
        [XmlTopNode.element "interface".toList "svcX.Manager".toList]).attrs
      = [(".Manager".toList, "svcX.Manager".toList)] := by
  decide

/-- Claim C5 amended: during load a shortcut attribute is installed for
an interface exactly when the interface name starts with the destination
string (a plain prefix test, not a dotted-extension test); the attribute
key is the interface name with its first (destination length + 1)
characters removed, which for a genuine dotted extension
destination ++ . ++ suffix is exactly the suffix. -/
theorem shortcut_set_iff_startswith (dest path name : PyStr) :
    (((⟨dest, path, [], [], false, 0⟩ : SDObject).load false
        [XmlTopNode.element "interface".toList name]).attrs
      = if dest.isPrefixOf name then [(name.drop (dest.length + 1), name)] else []) ∧
    ∀ suffix : PyStr,
      dest.isPrefixOf (dest ++ '.' :: suffix) = true ∧
      (dest ++ '.' :: suffix).drop (dest.length + 1) = suffix := by
  constructor
  · have h1 : (⟨dest, path, [], [], false, 0⟩ : SDObject).load false
        [XmlTopNode.element "interface".toList name]
        = loadNode ⟨dest, path, [], [], false, 1⟩
            (XmlTopNode.element "interface".toList name) := rfl
    rw [h1]
    cases hp : dest.isPrefixOf name with
    | true => simp [loadNode, dictInsertKey, setAttr, hp]
    | false => simp [loadNode, dictInsertKey, setAttr, hp]
  · intro suffix
    refine ⟨isPrefixOf_append_self dest ('.' :: suffix), ?_⟩
    have h1 : dest ++ '.' :: suffix = (dest ++ ['.']) ++ suffix := by simp
    have h2 : (dest ++ ['.']).length = dest.length + 1 := by simp
    rw [h1, ← h2, drop_length_append]

/-- Claim C6: a method with an override registered for interface i on
the owning object is always dispatched to the override with
(interface_name, args), bypassing the generic path and its checks
entirely; through an interface j the override is not registered for, the
call always takes the generic path and never reaches the override. -/
theorem override_dispatch_exclusive (ov : PyAttr) (children : List XmlArgNode)
    (i j name : PyStr) (args : List Int)
    (hc : ov.callable = true) (hi : i ∈ ov.overwrite_interfaces)
    (hj : j ∉ ov.overwrite_interfaces) :
    call_method (some ov) children i name args = CallAction.overrideCall i args ∧
    call_method (some ov) children j name args =
      auto_call_dbus_method j name
        ((children.filter (fun c => c.isElement && (c.direction == "in".toList))).map
          (fun c => c.typ)) args ∧
    ∀ (i2 : PyStr) (args2 : List Int),
      call_method (some ov) children j name args ≠ CallAction.overrideCall i2 args2 := by
  refine ⟨?_, ?_, ?_⟩
  · simp [call_method, hc, hi]
  · simp [call_method, hj]
  · intro i2 args2
    simp only [call_method]
    rw [if_neg (fun hcon => hj hcon.2)]
    exact auto_call_ne_override j name _ args i2 args2

/-- Claim C6 witness: a concrete override registered for org.A fires
through org.A with the interface name prepended, and a call through
org.B takes the generic path. -/
theorem override_dispatch_exclusive_witness :
    call_method (some ⟨true, ["org.A".toList]⟩) [] "org.A".toList "M".toList [7]
      = CallAction.overrideCall "org.A".toList [7] ∧
    call_method (some ⟨true, ["org.A".toList]⟩) [] "org.B".toList "M".toList [7]
      = auto_call_dbus_method "org.B".toList "M".toList [] [7] := by
  have h := override_dispatch_exclusive ⟨true, ["org.A".toList]⟩ []
    "org.A".toList "org.B".toList "M".toList [7] rfl (by decide) (by decide)
  exact ⟨h.1, h.2.1⟩

/-- Claim C7: past the arity check, the generic path fails with the
not-supported error exactly when some declared input signature contains
a variant marker v or a dictionary-entry opening brace, and in that case
no transport call is made; with no such marker the call is not rejected
by this check and reaches the transport with the joined signature. -/
theorem complex_signature_not_supported (i name : PyStr) (in_args : List PyStr)
    (args : List Int) (hlen : args.length = in_args.length) :
    ((∃ sig ∈ in_args, 'v' ∈ sig ∨ '\x7b' ∈ sig) →
      auto_call_dbus_method i name in_args args = CallAction.notSupported) ∧
    ((∀ sig ∈ in_args, ¬('v' ∈ sig ∨ '\x7b' ∈ sig)) →
      auto_call_dbus_method i name in_args args =
        CallAction.transportCall i name (concatSigs in_args) args) := by
  have hany : in_args.any containsBlockChar = true ↔
      ∃ sig ∈ in_args, 'v' ∈ sig ∨ '\x7b' ∈ sig := by
    rw [List.any_eq_true]
    constructor
    · rintro ⟨sig, hs, hcb⟩
      exact ⟨sig, hs, (containsBlockChar_iff sig).mp hcb⟩
    · rintro ⟨sig, hs, hv⟩
      exact ⟨sig, hs, (containsBlockChar_iff sig).mpr hv⟩
  constructor
  · intro hex
    unfold auto_call_dbus_method
    rw [if_neg (fun hne => hne hlen), if_pos (hany.mpr hex)]
  · intro hall
    have hno : ¬(in_args.any containsBlockChar = true) := fun hcon => by
      obtain ⟨sig, hs, hv⟩ := hany.mp hcon
      exact hall sig hs hv
    unfold auto_call_dbus_method
    rw [if_neg (fun hne => hne hlen), if_neg hno]

/-- Claim C7 witness: a one-argument method with signature v is rejected
as not supported; with signature s it reaches the transport. -/
theorem complex_signature_not_supported_witness :
    auto_call_dbus_method "I".toList "M".toList ["v".toList] [0]
      = CallAction.notSupported ∧
    auto_call_dbus_method "I".toList "M".toList ["s".toList] [0]
      = CallAction.transportCall "I".toList "M".toList "s".toList [0] := by
  constructor
  · exact (complex_signature_not_supported "I".toList "M".toList ["v".toList] [0]
      (by decide)).1 ⟨"v".toList, by decide, Or.inl (by decide)⟩
  · exact (complex_signature_not_supported "I".toList "M".toList ["s".toList] [0]
      (by decide)).2 (by decide)

/-- Claim C8: every write through the generic property path fails
without any transport operation: read-only access yields the
immutable-property error, any other access yields the not-supported
error, and no input ever produces a transport write. -/
theorem property_write_always_fails (prop_access property_name : PyStr) :
    (prop_access = "read".toList →
      set_property prop_access property_name = SetAction.immutableError property_name) ∧
    (prop_access ≠ "read".toList →
      set_property prop_access property_name = SetAction.notSupportedError) ∧
    ∀ p : PyStr, set_property prop_access property_name ≠ SetAction.transportSet p := by
  refine ⟨fun h1 => by unfold set_property; rw [if_pos h1],
    fun h1 => by unfold set_property; rw [if_neg h1], ?_⟩
  intro p
  unfold set_property
  split <;> simp

/-- Claim C8 witness: a read-only property write raises the immutable
error, a readwrite property write raises the not-supported error. -/
theorem property_write_always_fails_witness :
    set_property "read".toList "Id".toList = SetAction.immutableError "Id".toList ∧
    set_property "readwrite".toList "Id".toList = SetAction.notSupportedError :=
  ⟨(property_write_always_fails "read".toList "Id".toList).1 rfl,
   (property_write_always_fails "readwrite".toList "Id".toList).2.1 (by decide)⟩

/- ------------------------------------------------------------------ -/
/- Helper lemmas for the property bag                                  -/
/- ------------------------------------------------------------------ -/

lemma bagUpdate_notin : ∀ (kvs : List (String × PropVal)) (d : Bag) (k : String),
    (∀ kv ∈ kvs, kv.1 ≠ k) → bagUpdate d kvs k = d k := by
  intro kvs
  induction kvs with
  | nil => intro d k _; rfl
  | cons kv rest ih =>
    intro d k hk
    have h1 : kv.1 ≠ k := hk kv (List.mem_cons_self kv rest)
    have h2 : ∀ x ∈ rest, x.1 ≠ k := fun x hx => hk x (List.mem_cons_of_mem kv hx)
    show bagUpdate (bagSet d kv.1 kv.2) rest k = d k
    rw [ih (bagSet d kv.1 kv.2) k h2]
    show (if k = kv.1 then some kv.2 else d k) = d k
    rw [if_neg (fun he => h1 he.symm)]

lemma runReversedPipe_append_ok : ∀ (xs ys : List CleanupAction),
    (∀ x ∈ xs, x.fails = false) →
    runReversedPipe (xs ++ ys)
      = (xs.map (fun x => x.id) ++ (runReversedPipe ys).1, (runReversedPipe ys).2) := by
  intro xs
  induction xs with
  | nil => intro ys _; simp
  | cons a rest ih =>
    intro ys hok
    have ha : a.fails = false := hok a (List.mem_cons_self a rest)
    have hr : ∀ x ∈ rest, x.fails = false := fun x hx => hok x (List.mem_cons_of_mem a hx)
    have hstep : runReversedPipe ((a :: rest) ++ ys)
        = (a.id :: (runReversedPipe (rest ++ ys)).1, (runReversedPipe (rest ++ ys)).2) := by
      show runReversedPipe (a :: (rest ++ ys)) = _
      simp only [runReversedPipe, ha, Bool.false_eq_true, if_false]
    rw [hstep, ih ys hr]
    simp

lemma unit_properties_stream_key (a : RunArgs) (h : HostEnv) (k : String)
    (hk : k ∈ streamKeys) (hx : ∀ kv ∈ a.extra, kv.1 ∉ streamKeys) :
    unit_properties a h k = bagFilterNone (streamBag a h) k := by
  have hx1 : ∀ kv ∈ a.extra, kv.1 ≠ k := fun kv hkv he => hx kv hkv (he ▸ hk)
  have hm : ∀ kv ∈ mainProps (unitName a.name h.genHex) a (effEnv a h), kv.1 ≠ k := by
    intro kv hkv he
    have h2 : kv.1 ∈ (mainProps (unitName a.name h.genHex) a (effEnv a h)).map Prod.fst :=
      List.mem_map.mpr ⟨kv, hkv, rfl⟩
    have h1 : kv.1 ∈ mainKeys := by simpa [mainProps, mainKeys] using h2
    have h3 : k ∈ mainKeys := he ▸ h1
    have h4 : ∀ x ∈ mainKeys, x ∉ streamKeys := by decide
    exact h4 k h3 hk
  have hpre : unit_properties_prefilter a h k = streamBag a h k := by
    unfold unit_properties_prefilter
    rw [bagUpdate_notin a.extra _ _ hx1, bagUpdate_notin _ _ _ hm]
  unfold unit_properties bagFilterNone
  rw [hpre]

/- ------------------------------------------------------------------ -/
/- Concrete inputs used by witnesses and counterexamples               -/
/- ------------------------------------------------------------------ -/

def baseArgs : RunArgs :=
  { cmd := ["/bin/true"], name := some "test.service", user := none, nice := none,
    runtime_max_sec := none, env := [], extra := [], cwd := none,
    remain_after_exit := false, pty := false, pty_master := none, pty_path := none,
    stdin := none, stdout := none, stderr := none }

def baseHost : HostEnv :=
  { acquiredPtyMaster := 5, acquiredPtyPath := "/dev/pts/2", osTerm := none,
    genHex := "abc123" }

/- ------------------------------------------------------------------ -/
/- Claims about run.py                                                 -/
/- ------------------------------------------------------------------ -/

/-- Claim C2 counterexample: two registered actions, the later-registered
one raises during unwinding; the earlier-registered action is never run,
so the claim that all registered actions still run is false. -/
theorem cexit_unwind_stops_at_failure :
    cexitExit [⟨1, false⟩, ⟨2, true⟩] = ([2], true) ∧
    1 ∉ (cexitExit [⟨1, false⟩, ⟨2, true⟩]).1 := by
  decide

/-- Claim C2 amended: CExit runs actions in strict reverse registration
order, but a raised exception aborts the unwinding immediately: when no
action fails all actions run exactly once in reverse order, and when the
last-registered failing action a is preceded (in unwind order) only by
succeeding actions l2, exactly l2 reversed followed by a runs and the
exception escapes without running the earlier-registered actions. -/
theorem cexit_unwind_reverse_until_failure :
    (∀ pipe : List CleanupAction, (∀ x ∈ pipe, x.fails = false) →
      cexitExit pipe = (pipe.reverse.map (fun x => x.id), false)) ∧
    (∀ (l1 : List CleanupAction) (a : CleanupAction) (l2 : List CleanupAction),
      a.fails = true → (∀ x ∈ l2, x.fails = false) →
      cexitExit (l1 ++ a :: l2) = (l2.reverse.map (fun x => x.id) ++ [a.id], true)) := by
  constructor
  · intro pipe hok
    have h1 : ∀ x ∈ pipe.reverse, x.fails = false :=
      fun x hx => hok x (List.mem_reverse.mp hx)
    have h2 := runReversedPipe_append_ok pipe.reverse [] h1
    simpa [cexitExit, runReversedPipe] using h2
  · intro l1 a l2 ha hok
    have hrev : (l1 ++ a :: l2).reverse = l2.reverse ++ (a :: l1.reverse) := by
      simp [List.reverse_append]
    have h1 : ∀ x ∈ l2.reverse, x.fails = false :=
      fun x hx => hok x (List.mem_reverse.mp hx)
    have h2 := runReversedPipe_append_ok l2.reverse (a :: l1.reverse) h1
    have h3 : runReversedPipe (a :: l1.reverse) = ([a.id], true) := by
      unfold runReversedPipe
      rw [ha]
      simp
    unfold cexitExit
    rw [hrev, h2, h3]

/-- Claim C2 witness: a single succeeding action runs; with a failing
action registered first and a succeeding one second, the unwind runs the
second then the first (which raises) and stops. -/
theorem cexit_unwind_reverse_until_failure_witness :
    cexitExit [⟨5, false⟩] = ([5], false) ∧
    cexitExit [⟨7, true⟩, ⟨8, false⟩] = ([8, 7], true) := by
  constructor
  · have h := cexit_unwind_reverse_until_failure.1 [⟨5, false⟩] (by decide)
    simpa using h
  · have h := cexit_unwind_reverse_until_failure.2 [] ⟨7, true⟩ [⟨8, false⟩] rfl (by decide)
    simpa using h

/-- Claim C3 counterexample: runtime_max_sec = 0 does not omit the
property: the submitted bag carries RuntimeMaxUSec with value 0, because
(0 or 0) * 10 ** 6 or 0 evaluates to 0 and only None values are filtered
out. -/
theorem runtime_zero_submitted_as_zero :
    unit_properties { baseArgs with runtime_max_sec := some 0 } baseHost "RuntimeMaxUSec"
      = some (PropVal.int 0) := by
  decide

/-- Claim C3 amended: with no extra entry for the key, runtime_max_sec
of 5 seconds is submitted as a RuntimeMaxUSec of 5000000 microseconds,
an absent (None) runtime omits the property from the submitted bag, and
a runtime of 0 is submitted as the value 0 rather than omitted. -/
theorem runtime_max_usec_conversion (a : RunArgs) (h : HostEnv)
    (hx : ∀ kv ∈ a.extra, kv.1 ≠ "RuntimeMaxUSec") :
    (a.runtime_max_sec = some 5 →
      unit_properties a h "RuntimeMaxUSec" = some (PropVal.int 5000000)) ∧
    (a.runtime_max_sec = none →
      unit_properties a h "RuntimeMaxUSec" = none) ∧
    (a.runtime_max_sec = some 0 →
      unit_properties a h "RuntimeMaxUSec" = some (PropVal.int 0)) := by
  have hpre : unit_properties_prefilter a h "RuntimeMaxUSec"
      = some (optIntVal (runtimeMaxUSec a.runtime_max_sec)) := by
    unfold unit_properties_prefilter
    rw [bagUpdate_notin a.extra _ _ hx]
    rfl
  refine ⟨fun hs => ?_, fun hs => ?_, fun hs => ?_⟩ <;>
    (unfold unit_properties bagFilterNone; rw [hpre, hs]; rfl)

/-- Claim C3 witness: runtime_max_sec = 5 yields 5000000 and
runtime_max_sec = None omits the key, at concrete arguments. -/
theorem runtime_max_usec_conversion_witness :
    unit_properties { baseArgs with runtime_max_sec := some 5 } baseHost "RuntimeMaxUSec"
      = some (PropVal.int 5000000) ∧
    unit_properties baseArgs baseHost "RuntimeMaxUSec" = none := by
  constructor
  · exact (runtime_max_usec_conversion { baseArgs with runtime_max_sec := some 5 }
      baseHost (by simp [baseArgs])).1 rfl
  · exact (runtime_max_usec_conversion baseArgs baseHost (by simp [baseArgs])).2.1 rfl

/-- Claim C4 counterexample: present-but-empty values survive the
filter: an extra property with an empty byte-string value stays in the
submitted bag, and RemainAfterExit False (an empty value in Python
terms) also stays, so the claim that only non-empty values remain is
false. -/
theorem empty_values_survive_submission :
    unit_properties { baseArgs with extra := [("SomeKey", PropVal.bytes "")] }
        baseHost "SomeKey" = some (PropVal.bytes "") ∧
    unit_properties baseArgs baseHost "RemainAfterExit" = some (PropVal.bool false) := by
  decide

/-- Claim C4 amended: the filter before submission drops a key exactly
when its resolved value is None: the submitted bag never carries a None
value, any non-None value (including empty ones) passes through
unchanged, and a None-valued key is removed. -/
theorem only_none_values_dropped (a : RunArgs) (h : HostEnv) (k : String) :
    (∀ v, unit_properties a h k = some v → v ≠ PropVal.pyNone) ∧
    (∀ v, v ≠ PropVal.pyNone →
      (unit_properties a h k = some v ↔ unit_properties_prefilter a h k = some v)) ∧
    (unit_properties_prefilter a h k = some PropVal.pyNone →
      unit_properties a h k = none) := by
  have hbag : ∀ w, unit_properties_prefilter a h k = some w →
      unit_properties a h k = (if w = PropVal.pyNone then none else some w) := by
    intro w hw
    unfold unit_properties bagFilterNone
    rw [hw]
  have hnone : unit_properties_prefilter a h k = none →
      unit_properties a h k = none := by
    intro hw
    unfold unit_properties bagFilterNone
    rw [hw]
  refine ⟨?_, ?_, ?_⟩
  · intro v hv
    rcases hpre : unit_properties_prefilter a h k with _ | w
    · rw [hnone hpre] at hv
      exact absurd hv (by simp)
    · rw [hbag w hpre] at hv
      by_cases hw : w = PropVal.pyNone
      · rw [if_pos hw] at hv
        exact absurd hv (by simp)
      · rw [if_neg hw] at hv
        injection hv with h5
        subst h5
        exact hw
  · intro v hv
    constructor
    · intro hv2
      rcases hpre : unit_properties_prefilter a h k with _ | w
      · rw [hnone hpre] at hv2
        exact absurd hv2 (by simp)
      · rw [hbag w hpre] at hv2
        by_cases hw : w = PropVal.pyNone
        · rw [if_pos hw] at hv2
          exact absurd hv2 (by simp)
        · rw [if_neg hw] at hv2
          injection hv2 with h5
          subst h5
          rfl
    · intro hpre
      rw [hbag v hpre, if_neg hv]
  · intro hpre
    rw [hbag PropVal.pyNone hpre, if_pos rfl]

/-- Claim C4 witness: a non-None extra value is kept in the submitted
bag, via the amended characterization applied at a concrete input. -/
theorem only_none_values_dropped_witness :
    unit_properties { baseArgs with extra := [("SomeKey2", PropVal.bytes "x")] }
        baseHost "SomeKey2" = some (PropVal.bytes "x") :=
  ((only_none_values_dropped { baseArgs with extra := [("SomeKey2", PropVal.bytes "x")] }
      baseHost "SomeKey2").2.1 (PropVal.bytes "x") (by decide)).mpr (by decide)

/-- Claim C9: exactly one stream-routing mode reaches the submitted bag.
When the terminal branch is taken (pty requested, or a truthy pty_path
supplied), the bag carries the terminal triple and the terminal path and
none of the per-stream descriptor keys, even when stdin, stdout or
stderr descriptors were also supplied; otherwise none of the terminal
keys appear and each descriptor key appears exactly when its stream was
supplied, with the supplied descriptor as value. -/
theorem stream_routing_modes_exclusive (a : RunArgs) (h : HostEnv)
    (hx : ∀ kv ∈ a.extra, kv.1 ∉ streamKeys) :
    (pyTruthyStr (effPtyPath a h) = true →
      unit_properties a h "StandardInput" = some (PropVal.bytes "tty") ∧
      unit_properties a h "StandardOutput" = some (PropVal.bytes "tty") ∧
      unit_properties a h "StandardError" = some (PropVal.bytes "tty") ∧
      unit_properties a h "TTYPath" = some (PropVal.bytes ((effPtyPath a h).getD "")) ∧
      unit_properties a h "StandardInputFileDescriptor" = none ∧
      unit_properties a h "StandardOutputFileDescriptor" = none ∧
      unit_properties a h "StandardErrorFileDescriptor" = none) ∧
    (pyTruthyStr (effPtyPath a h) = false →
      unit_properties a h "StandardInput" = none ∧
      unit_properties a h "StandardOutput" = none ∧
      unit_properties a h "StandardError" = none ∧
      unit_properties a h "TTYPath" = none ∧
      unit_properties a h "StandardInputFileDescriptor" = Option.map PropVal.int a.stdin ∧
      unit_properties a h "StandardOutputFileDescriptor" = Option.map PropVal.int a.stdout ∧
      unit_properties a h "StandardErrorFileDescriptor" = Option.map PropVal.int a.stderr) := by
  constructor
  · intro ht
    have hsb : streamBag a h = bagUpdate emptyBag (ttyProps ((effPtyPath a h).getD "")) := by
      unfold streamBag
      rw [ht]
      simp
    refine ⟨?_, ?_, ?_, ?_, ?_, ?_, ?_⟩ <;>
      (rw [unit_properties_stream_key a h _ (by decide) hx, hsb]; rfl)
  · intro ht
    have hsb : streamBag a h = bagUpdate emptyBag (fdProps a) := by
      unfold streamBag
      rw [ht]
      simp
    refine ⟨?_, ?_, ?_, ?_, ?_, ?_, ?_⟩ <;>
      rw [unit_properties_stream_key a h _ (by decide) hx, hsb]
    · rfl
    · rfl
    · rfl
    · rfl
    · rcases hs : a.stdin with _ | n <;>
        simp [bagFilterNone, bagUpdate, bagSet, emptyBag, fdProps, optIntVal, hs]
    · rcases hs : a.stdout with _ | n <;>
        simp [bagFilterNone, bagUpdate, bagSet, emptyBag, fdProps, optIntVal, hs]
    · rcases hs : a.stderr with _ | n <;>
        simp [bagFilterNone, bagUpdate, bagSet, emptyBag, fdProps, optIntVal, hs]

/-- Claim C9 witness: with a truthy pty_path and an explicit stdout
descriptor, the submitted bag routes stdout to the terminal and carries
no stdout descriptor key. -/
theorem stream_routing_modes_exclusive_witness :
    unit_properties { baseArgs with pty_path := some "/dev/pts/7", stdout := some 1 }
        baseHost "StandardOutput" = some (PropVal.bytes "tty") ∧
    unit_properties { baseArgs with pty_path := some "/dev/pts/7", stdout := some 1 }
        baseHost "StandardOutputFileDescriptor" = none := by
  have h1 := (stream_routing_modes_exclusive
    { baseArgs with pty_path := some "/dev/pts/7", stdout := some 1 }
    baseHost (by decide)).1 (by decide)
  exact ⟨h1.2.1, h1.2.2.2.2.2.1⟩

/-- Claim C10: get_fno passes None through (the stream is then treated
as absent rather than an error), passes every int through unchanged,
calls fileno() on objects carrying a callable fileno, and is idempotent
on every accepted input; in particular run's resolution of three absent
streams raises no handle error. -/
theorem get_fno_behavior :
    get_fno PyObj.pyNone = Except.ok PyObj.pyNone ∧
    (∀ n : Int, get_fno (PyObj.pyInt n) = Except.ok (PyObj.pyInt n)) ∧
    (∀ fd : Int, get_fno (PyObj.fileObj fd) = Except.ok (PyObj.pyInt fd)) ∧
    (∀ v w : PyObj, get_fno v = Except.ok w → get_fno w = Except.ok w) ∧
    resolveStreams PyObj.pyNone PyObj.pyNone PyObj.pyNone
      = Except.ok (PyObj.pyNone, PyObj.pyNone, PyObj.pyNone) := by
  refine ⟨rfl, fun n => rfl, fun fd => rfl, ?_, rfl⟩
  intro v w hw
  cases v <;> simp [get_fno] at hw <;> subst hw <;> rfl

/-- Claim C10 witness: idempotence applied at a concrete file object
whose fileno is 3. -/
theorem get_fno_behavior_witness :
    get_fno (PyObj.pyInt 3) = Except.ok (PyObj.pyInt 3) :=
  get_fno_behavior.2.2.2.1 (PyObj.fileObj 3) (PyObj.pyInt 3) rfl
